import Mathlib

/-!
Verification of the CDB mesh import/export engine (io_mesh_cdb).

This file shallowly embeds the Python source of `import_cdb.py` and
`export_cdb.py` into Lean: Python dicts become insertion-ordered
association lists, Python uncaught exceptions and non-termination become
`none` results, text becomes `List Char`.  The definitions follow the
source line by line; theorems about the embedded definitions settle the
frozen claims about the program.
-/

namespace CDB

/-! ## Python dictionaries as insertion-ordered association lists -/

/-- Python dict lookup: first (and, by `dictInsert` construction, only)
binding of the key. -/
def dictLookup [DecidableEq κ] : List (κ × ν) → κ → Option ν
  | [], _ => none
  | (k, v) :: t, key => if k = key then some v else dictLookup t key

/-- Python dict assignment writing `d[k] = v`: overwrite in place keeping the
original insertion position, else append at the end. -/
def dictInsert [DecidableEq κ] : List (κ × ν) → κ → ν → List (κ × ν)
  | [], key, v => [(key, v)]
  | (k, w) :: t, key, v =>
    if k = key then (key, v) :: t else (k, w) :: dictInsert t key v

/-- Python membership test for a dict key. -/
def dictContains [DecidableEq κ] (d : List (κ × ν)) (key : κ) : Bool :=
  (dictLookup d key).isSome

/-- Python set.add: append if not already present. -/
def setAdd [DecidableEq α] (s : List α) (x : α) : List α :=
  if x ∈ s then s else s ++ [x]

/-! ## Canonicalization and inversion of face tuples

Faithful embedding of `order_face` and `inverse_face` from `get_faces`
in `import_cdb.py`. -/

/-- The loop of `order_face` locating `min_index`, translated from
the Python loop over `range(len(f) - 1)` that replaces `min_index`
with `i + 1` whenever `f[i + 1] < f[min_index]`. -/
def min_index (f : List Int) : Nat :=
  (List.range (f.length - 1)).foldl
    (fun mi i => if f.getD (i + 1) 0 < f.getD mi 0 then i + 1 else mi) 0

/-- `order_face`: rotates the tuple so that the first occurrence of its
minimum entry comes first.  The Python builds
`ordered_face[i] = f[index]` with `index = min_index + i`,
subtracting `len(f)` once when `index >= len(f)`. -/
def order_face (f : List Int) : List Int :=
  if f.length = 0 then []
  else
    (List.range f.length).map fun i =>
      f.getD
        (if f.length ≤ min_index f + i then min_index f + i - f.length
         else min_index f + i) 0

/-- `inverse_face`: keeps the first entry and reverses the rest; the
Python appends `f[len(f) - i - 1]` for `i` in `range(len(f) - 1)`. -/
def inverse_face (f : List Int) : List Int :=
  match f with
  | [] => []
  | x :: _ =>
    x :: (List.range (f.length - 1)).map fun i => f.getD (f.length - i - 1) 0

/-- Truncated `min_index` fold, for reasoning about the loop. -/
def min_index_upto (f : List Int) (n : Nat) : Nat :=
  (List.range n).foldl
    (fun mi i => if f.getD (i + 1) 0 < f.getD mi 0 then i + 1 else mi) 0

/-! ## Per-topology face tables (`faces_on_*` in `get_faces`) -/

def faces_on_8hexahedral (v1 v2 v3 v4 v5 v6 v7 v8 : Int) : List (List Int) :=
  [order_face [v1, v4, v3, v2], order_face [v1, v2, v6, v5],
   order_face [v2, v3, v7, v6], order_face [v3, v4, v8, v7],
   order_face [v4, v1, v5, v8], order_face [v5, v6, v7, v8]]

def faces_on_6wedge (v1 v2 v3 v4 v5 v6 : Int) : List (List Int) :=
  [order_face [v1, v3, v2], order_face [v1, v2, v5, v4],
   order_face [v2, v3, v6, v5], order_face [v3, v1, v4, v6],
   order_face [v4, v5, v6]]

def faces_on_5pyramid (v1 v2 v3 v4 v5 : Int) : List (List Int) :=
  [order_face [v1, v4, v3, v2], order_face [v1, v2, v5],
   order_face [v2, v3, v5], order_face [v3, v4, v5],
   order_face [v4, v1, v5]]

def faces_on_4tetrahedral (v1 v2 v3 v4 : Int) : List (List Int) :=
  [order_face [v1, v3, v2], order_face [v1, v2, v4],
   order_face [v2, v3, v4], order_face [v3, v1, v4]]

def faces_on_20hexahedral (v1 v2 v3 v4 v5 v6 v7 v8 v12 v23 v34 v14 v56 v67
    v78 v58 v15 v26 v37 v48 : Int) : List (List Int) :=
  [order_face [v1, v14, v4, v34, v3, v23, v2, v12],
   order_face [v1, v12, v2, v26, v6, v56, v5, v15],
   order_face [v2, v23, v3, v37, v7, v67, v6, v26],
   order_face [v3, v34, v4, v48, v8, v78, v7, v37],
   order_face [v4, v14, v1, v15, v5, v58, v8, v48],
   order_face [v5, v56, v6, v67, v7, v78, v8, v58]]

def faces_on_13pyramid (v1 v2 v3 v4 v5 v12 v23 v34 v14 v15 v25 v35
    v45 : Int) : List (List Int) :=
  [order_face [v1, v14, v4, v34, v3, v23, v2, v12],
   order_face [v1, v12, v2, v25, v5, v15],
   order_face [v2, v23, v3, v35, v5, v25],
   order_face [v3, v34, v4, v45, v5, v35],
   order_face [v4, v14, v1, v15, v5, v45]]

def faces_on_10tetrahedral (v1 v2 v3 v4 v12 v23 v13 v14 v24 v34 : Int) :
    List (List Int) :=
  [order_face [v1, v13, v3, v23, v2, v12],
   order_face [v1, v12, v2, v24, v4, v14],
   order_face [v2, v23, v3, v34, v4, v24],
   order_face [v3, v13, v1, v14, v4, v34]]

def faces_on_4rectangle (v1 v2 v3 v4 : Int) : List (List Int) :=
  [order_face [v1, v2, v3, v4]]

def faces_on_3triangle (v1 v2 v3 : Int) : List (List Int) :=
  [order_face [v1, v2, v3]]

def faces_on_8rectangle (v1 v2 v3 v4 v12 v23 v34 v14 : Int) :
    List (List Int) :=
  [order_face [v1, v12, v2, v23, v3, v34, v4, v14]]

def faces_on_6triangle (v1 v12 v2 v23 v3 v13 : Int) : List (List Int) :=
  [order_face [v1, v12, v2, v23, v3, v13]]

/-! ## Face extraction (`get_all_faces`, `get_outer_faces`) -/

/-- Per-element dispatch of `get_all_faces`.  Result encoding:
`none` models an uncaught Python exception escaping the loop,
`some none` models `continue` (the element contributes no face group),
`some (some faces)` is the computed face list (possibly empty).
In the source an element is a tuple
`(element_mat, element_real, element_type, v1, ..., vn)`. -/
def elementFaces (global_et : List (Int × Int)) (e : List Int) :
    Option (Option (List (List Int))) :=
  match e.get? 2 with
  | none => some none
  | some tcode =>
    match dictLookup global_et tcode with
    | none => some none
    | some etype =>
      if etype = 28 ∨ etype = 63 ∨ etype = 152 then
        -- Shell elements without midside node
        if e.length < 7 then some none
        else
          let v1 := e.getD 3 0
          let v2 := e.getD 4 0
          let v3 := e.getD 5 0
          let v4 := e.getD 6 0
          if v3 = v4 then some (some (faces_on_3triangle v1 v2 v3))
          else some (some (faces_on_4rectangle v1 v2 v3 v4))
      else if etype = 93 ∨ etype = 281 then
        -- Shell elements with midside node
        if e.length < 11 then some none
        else
          let v1 := e.getD 3 0
          let v2 := e.getD 4 0
          let v3 := e.getD 5 0
          let v4 := e.getD 6 0
          let v12 := e.getD 7 0
          let v23 := e.getD 8 0
          let v34 := e.getD 9 0
          let v14 := e.getD 10 0
          if v3 = v4 then none
            -- the source calls faces_on_6triangle(v1, v12, v2, v23, v3, v13)
            -- where v13 is an unbound local: this branch raises NameError
          else some (some (faces_on_8rectangle v1 v2 v3 v4 v12 v23 v34 v14))
      else if etype = 45 ∨ etype = 185 then
        -- Solid elements without midside node
        if e.length < 11 then some none
        else
          let v1 := e.getD 3 0
          let v2 := e.getD 4 0
          let v3 := e.getD 5 0
          let v4 := e.getD 6 0
          let v5 := e.getD 7 0
          let v6 := e.getD 8 0
          let v7 := e.getD 9 0
          let v8 := e.getD 10 0
          if v3 = v4 ∧ v7 = v8 then
            some (some (faces_on_6wedge v1 v2 v3 v5 v6 v7))
          else if v5 = v6 ∧ v5 = v7 ∧ v5 = v8 then
            some (some (faces_on_5pyramid v1 v2 v3 v4 v5))
          else if v3 = v4 ∧ v5 = v6 ∧ v5 = v7 ∧ v5 = v8 then
            some (some (faces_on_4tetrahedral v1 v2 v3 v5))
          else
            some (some (faces_on_8hexahedral v1 v2 v3 v4 v5 v6 v7 v8))
      else if etype = 95 ∨ etype = 186 then
        -- Solid elements with midside node: 20-node structural solid
        if e.length < 23 then some none
        else
          let v1 := e.getD 3 0
          let v2 := e.getD 4 0
          let v3 := e.getD 5 0
          let v4 := e.getD 6 0
          let v5 := e.getD 7 0
          let v6 := e.getD 8 0
          let v7 := e.getD 9 0
          let v8 := e.getD 10 0
          let v12 := e.getD 11 0
          let v23 := e.getD 12 0
          let v34 := e.getD 13 0
          let v14 := e.getD 14 0
          let v56 := e.getD 15 0
          let v67 := e.getD 16 0
          let v78 := e.getD 17 0
          let v58 := e.getD 18 0
          let v15 := e.getD 19 0
          let v26 := e.getD 20 0
          let v37 := e.getD 21 0
          let v48 := e.getD 22 0
          if v3 = v4 ∧ v7 = v8 then
            -- the source calls faces_on_15wedge, whose body references the
            -- undefined locals v32, v21, v54, v41: the call raises NameError
            none
          else if v5 = v6 ∧ v5 = v7 ∧ v5 = v8 then
            some (some (faces_on_13pyramid v1 v2 v3 v4 v5 v12 v23 v34 v14
              v15 v26 v37 v48))
          else if v3 = v4 ∧ v5 = v6 ∧ v5 = v7 ∧ v5 = v8 then
            some (some (faces_on_10tetrahedral v1 v2 v3 v5 v12 v23 v14 v15
              v26 v37))
          else
            some (some (faces_on_20hexahedral v1 v2 v3 v4 v5 v6 v7 v8 v12
              v23 v34 v14 v56 v67 v78 v58 v15 v26 v37 v48))
      else if etype = 92 ∨ etype = 187 then
        -- Solid elements with midside node: 10-node structural solid
        if e.length < 13 then some none
        else
          some (some (faces_on_10tetrahedral (e.getD 3 0) (e.getD 4 0)
            (e.getD 5 0) (e.getD 6 0) (e.getD 7 0) (e.getD 8 0) (e.getD 9 0)
            (e.getD 10 0) (e.getD 11 0) (e.getD 12 0)))
      else some none

/-- The per-face counting loop at the end of `get_all_faces`. -/
def countFaces (cf : List (List Int × Nat)) (faces : List (List Int)) :
    List (List Int × Nat) :=
  faces.foldl
    (fun cf face => dictInsert cf face ((dictLookup cf face).getD 0 + 1)) cf

/-- `get_all_faces`: walk all elements and count canonical faces per
`(material, real_constant)` group.  `none` models an uncaught Python
exception inside the loop. -/
def get_all_faces (global_e : List (Int × List Int))
    (global_et : List (Int × Int)) :
    Option (List ((Int × Int) × List (List Int × Nat))) :=
  global_e.foldl
    (fun acc p =>
      match acc with
      | none => none
      | some counted =>
        match elementFaces global_et p.2 with
        | none => none
        | some none => some counted
        | some (some faces) =>
          let gid := (p.2.getD 0 0, p.2.getD 1 0)
          let cf0 := (dictLookup counted gid).getD []
          some (dictInsert counted gid (countFaces cf0 faces)))
    (some [])

/-- The outer-face condition tested by `get_outer_faces` for a face `f` of
a group with counted faces `cf`:
`inverse_face(f) not in cf and ((not remove_duplicates) or cf[f] == 1)`. -/
def outerCond (cf : List (List Int × Nat)) (remove_duplicates : Bool)
    (f : List Int) : Bool :=
  !dictContains cf (inverse_face f) &&
    (!remove_duplicates || (dictLookup cf f).getD 0 == 1)

/-- One group of `get_outer_faces`: iterate the counted faces and add the
ones passing `outerCond` to a set. -/
def outerOfGroup (cf : List (List Int × Nat)) (remove_duplicates : Bool) :
    List (List Int) :=
  cf.foldl
    (fun acc p => if outerCond cf remove_duplicates p.1 then setAdd acc p.1
      else acc) []

/-- `get_outer_faces`: per-group outer faces. -/
def get_outer_faces (counted : List ((Int × Int) × List (List Int × Nat)))
    (remove_duplicates : Bool) : List ((Int × Int) × List (List Int)) :=
  counted.map fun g => (g.1, outerOfGroup g.2 remove_duplicates)

/-- `get_faces`: the composition run by the import pipeline. -/
def get_faces (global_e : List (Int × List Int))
    (global_et : List (Int × Int)) (remove_duplicates : Bool) :
    Option (List ((Int × Int) × List (List Int))) :=
  (get_all_faces global_e global_et).map fun c =>
    get_outer_faces c remove_duplicates

/-! ## Renumbering (`renumber`)

Coordinates are modeled as integer triples: the verified scenarios only
exercise coordinates with integral values, which text round-trips
exactly (see `pyFloatZ?` below). -/

/-- A nodal coordinate triple. -/
abbrev Coord := Int × Int × Int

/-- Loop state of `renumber` for one `(material, real_constant)` group:
the growing vertex array, the coordinate-to-index dict `vert_coords`,
and the running `index_number`. -/
structure RSt where
  verts : List Coord
  vc : List (Coord × Nat)
  idx : Nat

/-- Inner loop of `renumber` over the node ids of one face.  A node id
absent from `global_n` raises `KeyError` in the source (`none` here);
otherwise the node's coordinate is looked up in `vert_coords` and a
fresh local index is assigned on first sight. -/
def renumNodes (N : List (Int × Coord)) :
    List Int → RSt → List Nat → Option (RSt × List Nat)
  | [], st, face => some (st, face)
  | v :: vs, st, face =>
    match dictLookup N v with
    | none => none
    | some coord =>
      match dictLookup st.vc coord with
      | some i => renumNodes N vs st (face ++ [i])
      | none =>
        renumNodes N vs
          ⟨st.verts ++ [coord], dictInsert st.vc coord st.idx, st.idx + 1⟩
          (face ++ [st.idx])

/-- Loop of `renumber` over the faces of one group. -/
def renumFaces (N : List (Int × Coord)) :
    List (List Int) → RSt → List (List Nat) →
      Option (RSt × List (List Nat))
  | [], st, fs => some (st, fs)
  | f :: fl, st, fs =>
    match renumNodes N f st [] with
    | none => none
    | some (st2, face) => renumFaces N fl st2 (fs ++ [face])

/-- `renumber` restricted to one group: fresh `vert_coords` and
`index_number = 0`, returning the group's vertex array and rewritten
faces. -/
def renumberGroup (N : List (Int × Coord)) (fl : List (List Int)) :
    Option (List Coord × List (List Nat)) :=
  match renumFaces N fl ⟨[], [], 0⟩ [] with
  | none => none
  | some (st, fs) => some (st.verts, fs)

/-- Body of the outer loop of `renumber` over the groups. -/
def renumberStep (N : List (Int × Coord))
    (acc : Option (List ((Int × Int) × (List Coord × List (List Nat)))))
    (g : (Int × Int) × List (List Int)) :
    Option (List ((Int × Int) × (List Coord × List (List Nat)))) :=
  match acc with
  | none => none
  | some out =>
    match renumberGroup N g.2 with
    | none => none
    | some vf => some (dictInsert out g.1 vf)

/-- `renumber`: per-group compaction of node coordinates into a dense
local index space.  `none` models the uncaught `KeyError` raised by
`global_n[v]` on a dangling node reference. -/
def renumber (N : List (Int × Coord))
    (F : List ((Int × Int) × List (List Int))) :
    Option (List ((Int × Int) × (List Coord × List (List Nat)))) :=
  F.foldl (renumberStep N) (some [])

/-- One step of first-seen deduplication. -/
def fsStep [DecidableEq α] (acc : List α) (c : α) : List α :=
  if c ∈ acc then acc else acc ++ [c]

/-- First-seen deduplication of a list, the order in which `renumber`
emits vertex entries. -/
def firstSeen [DecidableEq α] (cs : List α) : List α := cs.foldl fsStep []

/-! ## Python text primitives

Text is `List Char`; a file is a list of lines without their trailing
newline.  `readline` re-attaches the newline and returns the empty
string at end of input, as Python's `file.readline` does. -/

def isPySpace (c : Char) : Bool :=
  c == ' ' || c == '\t' || c == '\n' || c == '\r'

/-- Python `str.strip()`. -/
def pyStrip (s : List Char) : List Char :=
  ((s.dropWhile isPySpace).reverse.dropWhile isPySpace).reverse

/-- Python `str.lower()` (ASCII). -/
def pyLower (s : List Char) : List Char := s.map Char.toLower

def splitCommaAux : List Char → List Char → List (List Char)
  | [], cur => [cur.reverse]
  | c :: t, cur =>
    if c = ',' then cur.reverse :: splitCommaAux t []
    else splitCommaAux t (c :: cur)

/-- Python `str.split(',')`. -/
def splitComma (s : List Char) : List (List Char) := splitCommaAux s []

def pyFindAux (c : Char) : List Char → Nat → Int
  | [], _ => -1
  | x :: t, i => if x = c then (i : Int) else pyFindAux c t (i + 1)

/-- Python `str.find(c)`: index of first occurrence or -1. -/
def pyFind (s : List Char) (c : Char) : Int := pyFindAux c s 0

/-- Python `str.rfind(c)`: index of last occurrence or -1. -/
def pyRFind (s : List Char) (c : Char) : Int :=
  let r := pyFindAux c s.reverse 0
  if r < 0 then -1 else (s.length : Int) - 1 - r

/-- Python slicing `s[a : b]` with clamping and negative indices. -/
def pySlice (s : List Char) (a b : Int) : List Char :=
  let n : Int := s.length
  let a2 := if a < 0 then max 0 (n + a) else min a n
  let b2 := if b < 0 then max 0 (n + b) else min b n
  (s.take b2.toNat).drop a2.toNat

/-- Python `str.strip('.')`. -/
def stripDots (s : List Char) : List Char :=
  ((s.dropWhile (fun c => c = '.')).reverse.dropWhile
    (fun c => c = '.')).reverse

/-- Decimal digit-run value; fails on the empty run or a non-digit. -/
def digitsVal? (ds : List Char) : Option Nat :=
  if ds.isEmpty then none
  else
    ds.foldl
      (fun acc c =>
        match acc with
        | none => none
        | some n => if c.isDigit then some (n * 10 + (c.toNat - 48))
          else none)
      (some 0)

/-- Python `int(s)`: strip whitespace, optional sign, decimal digits;
`none` models `ValueError` (and `IndexError` at missing-token call
sites, which the same `except` clauses catch). -/
def pyInt? (s : List Char) : Option Int :=
  match pyStrip s with
  | '-' :: ds => (digitsVal? ds).map fun n => -(n : Int)
  | '+' :: ds => (digitsVal? ds).map fun n => (n : Int)
  | ds => (digitsVal? ds).map fun n => (n : Int)

def floatDigits? (ds : List Char) : Option Nat :=
  let ip := ds.takeWhile fun c => c ≠ '.'
  match ds.dropWhile (fun c => c ≠ '.') with
  | [] => digitsVal? ip
  | _ :: fp => if fp.all (fun c => c = '0') then digitsVal? ip else none

/-- Python `float(s)` restricted to integral values: optional sign,
digits, optionally a decimal point followed by zero digits.  The
verified scenarios only write and read integral coordinates, which this
conversion handles exactly; a non-integral literal fails here where
Python would produce a fractional value. -/
def pyFloatZ? (s : List Char) : Option Int :=
  match pyStrip s with
  | '-' :: ds => (floatDigits? ds).map fun n => -(n : Int)
  | '+' :: ds => (floatDigits? ds).map fun n => (n : Int)
  | ds => (floatDigits? ds).map fun n => (n : Int)

/-- One `readline` over the remaining lines. -/
def readline : List (List Char) → (List Char × List (List Char))
  | [] => ([], [])
  | l :: rest => (l ++ ['\n'], rest)

/-! ## Format tokenizer (`detectFormat`) -/

/-- A field format: kind string, width, decimals (e.g. `("i", 8, 0)`). -/
abbrev Form := List Char × Int × Int

/-- The per-character accumulator of `detectFormat`, building
`raw_count`, `str_type`, `raw_identifier1`, `raw_identifier2`. -/
def formAccum (acc : List Char × List Char × List Char × List Char)
    (c : Char) : List Char × List Char × List Char × List Char :=
  match acc with
  | (raw_count, str_type, raw_id1, raw_id2) =>
    if str_type.isEmpty ∧ c.isDigit then
      (raw_count ++ [c], str_type, raw_id1, raw_id2)
    else if raw_id1.isEmpty ∧ ¬ c.isDigit then
      (raw_count, str_type ++ [c], raw_id1, raw_id2)
    else if raw_id2.isEmpty ∧ c ≠ '.' then
      (raw_count, str_type, raw_id1 ++ [c], raw_id2)
    else
      (raw_count, str_type, raw_id1, raw_id2 ++ [c])

/-- Parse one comma-separated format group; an unparsable group
contributes no fields. -/
def parseFormGroup (raw_form : List Char) : List Form :=
  match raw_form.foldl formAccum ([], [], [], []) with
  | (raw_count, str_type, raw_id1, raw_id2) =>
    match pyInt? raw_count, pyInt? raw_id1 with
    | some count, some id1 =>
      if raw_id2.isEmpty then List.replicate count.toNat (str_type, id1, 0)
      else
        match pyInt? (stripDots raw_id2) with
        | some id2 => List.replicate count.toNat (str_type, id1, id2)
        | none => []
    | _, _ => []

/-- `detectFormat`: expand a Fortran format descriptor line into field
specs. -/
def detectFormat (line : List Char) : List Form :=
  if line.length < 3 then []
  else
    let r1 := pyFind line '('
    let r2 :=
      let r := pyRFind line ')'
      if r < 0 then (line.length : Int) else r
    (splitComma (pySlice line (r1 + 1) r2)).foldl
      (fun forms raw => forms ++ parseFormGroup raw) []

/-! ## CDB command interpreter (`read3DMesh`) -/

/-- Parser state: the three tables and the four current-value
selectors. -/
structure PState where
  global_et : List (Int × Int)
  global_e : List (Int × List Int)
  global_n : List (Int × Coord)
  current_element : Int
  current_mat : Int
  current_real : Int
  current_type : Int
deriving DecidableEq

def initPState : PState := ⟨[], [], [], 1, 1, 1, 1⟩

/-- `readN`. -/
def readN (tokens : List (List Char)) (st : PState) : PState :=
  if tokens.length < 4 then st
  else if tokens.getD 2 [] ≠ "loc".toList then st
  else
    match pyInt? (tokens.getD 3 []) with
    | none => st
    | some node_number =>
      if node_number ≤ 0 then st
      else
        let x := ((tokens.get? 6).bind pyFloatZ?).getD 0
        let y := ((tokens.get? 7).bind pyFloatZ?).getD 0
        let z := ((tokens.get? 8).bind pyFloatZ?).getD 0
        { st with global_n := dictInsert st.global_n node_number (x, y, z) }

/-- All-or-nothing integer conversion of the node tokens of an
`EN,,NODE` record. -/
def collectInts? : List (List Char) → Option (List Int)
  | [] => some []
  | t :: ts =>
    match pyInt? t with
    | none => none
    | some n => (collectInts? ts).map fun ns => n :: ns

/-- `readEN`. -/
def readEN (tokens : List (List Char)) (st : PState) : PState :=
  if tokens.length < 4 then st
  else if tokens.getD 2 [] = "attr".toList then
    let element_mat := ((tokens.get? 4).bind pyInt?).getD st.current_mat
    let element_type := ((tokens.get? 5).bind pyInt?).getD st.current_type
    let element_real := ((tokens.get? 6).bind pyInt?).getD st.current_real
    let element_number :=
      ((tokens.get? 9).bind pyInt?).getD st.current_element
    let current_element2 :=
      match (tokens.get? 9).bind pyInt? with
      | some n => n
      | none => st.current_element
    let element_data : List Int :=
      match dictLookup st.global_e element_number with
      | some old =>
        if 3 ≤ old.length then
          [element_mat, element_real, element_type] ++
            ((dictLookup st.global_e current_element2).getD []).drop 3
        else [element_mat, element_real, element_type]
      | none => [element_mat, element_real, element_type]
    { st with
        global_e := dictInsert st.global_e element_number element_data,
        current_element := current_element2 }
  else if tokens.getD 2 [] = "node".toList then
    let element_data0 : List Int :=
      match dictLookup st.global_e st.current_element with
      | some old => old
      | none => [st.current_mat, st.current_real, st.current_type]
    match collectInts? (tokens.drop 4) with
    | none => st
    | some ns =>
      { st with global_e :=
          dictInsert st.global_e st.current_element (element_data0 ++ ns) }
  else st

/-- `readET`.  When token 1 is empty the source computes the fresh id
but never assigns its local `et_type`, so the subsequent dict store
`global_et[et_number] = et_type` raises `NameError`: `none`. -/
def readET (tokens : List (List Char)) (st : PState) : Option PState :=
  if tokens.length < 3 then some st
  else if tokens.getD 1 [] = [] then none
  else
    match pyInt? (tokens.getD 1 []), pyInt? (tokens.getD 2 []) with
    | some et_number, some et_type =>
      some { st with
        global_et := dictInsert st.global_et et_number et_type,
        current_type := et_number }
    | _, _ => some st

/-- `readTYPE`. -/
def readTYPE (tokens : List (List Char)) (st : PState) : PState :=
  match (tokens.get? 1).bind pyInt? with
  | some n => { st with current_type := n }
  | none => st

/-- `readMAT`. -/
def readMAT (tokens : List (List Char)) (st : PState) : PState :=
  match (tokens.get? 1).bind pyInt? with
  | some n => { st with current_mat := n }
  | none => st

/-- `readREAL`. -/
def readREAL (tokens : List (List Char)) (st : PState) : PState :=
  match (tokens.get? 1).bind pyInt? with
  | some n => { st with current_real := n }
  | none => st

/-- Data-line loop of `readNBLOCK`.  A whitespace-only line raises
`IndexError` at `strip()[0]` (`none`); a line whose first stripped
character is `n` terminates the block. -/
def nblockLoop (w0 start_x start_y start_z end_z : Int) (st : PState) :
    List (List Char) → Option (PState × List (List Char))
  | [] => some (st, [])
  | l :: rest =>
    let node_line := l ++ ['\n']
    match pyStrip node_line with
    | [] => none
    | c :: _ =>
      if c.toLower = 'n' then some (st, rest)
      else
        match pyInt? (pySlice node_line 0 w0) with
        | none => nblockLoop w0 start_x start_y start_z end_z st rest
        | some node_number =>
          let x := (pyFloatZ? (pySlice node_line start_x start_y)).getD 0
          let y := (pyFloatZ? (pySlice node_line start_y start_z)).getD 0
          let z := (pyFloatZ? (pySlice node_line start_z end_z)).getD 0
          nblockLoop w0 start_x start_y start_z end_z
            { st with
                global_n := dictInsert st.global_n node_number (x, y, z) }
            rest

/-- `readNBLOCK`. -/
def readNBLOCK (st : PState) (lines : List (List Char)) :
    Option (PState × List (List Char)) :=
  match readline lines with
  | (fline, rest) =>
    let forms := detectFormat fline
    if forms.length < 6 then some (st, rest)
    else
      let w0 := (forms.getD 0 ([], 0, 0)).2.1
      let start_x := w0 + (forms.getD 1 ([], 0, 0)).2.1 +
        (forms.getD 2 ([], 0, 0)).2.1
      let start_y := start_x + (forms.getD 3 ([], 0, 0)).2.1
      let start_z := start_y + (forms.getD 4 ([], 0, 0)).2.1
      let end_z := start_z + (forms.getD 5 ([], 0, 0)).2.1
      nblockLoop w0 start_x start_y start_z end_z st rest

/-- The Python locals `field` and `end` of `readEBLOCK`, which persist
across loop iterations; `none` means not yet assigned, and using an
unassigned one raises `UnboundLocalError`. -/
structure EVars where
  fieldv : Option Int
  endv : Option Int
deriving DecidableEq

/-- First-line field loop of a SOLID EBLOCK record: on a conversion or
index failure the stale `field` is appended again (`except: pass`
followed by `fields.append(field)`), and an unassigned `field` or `end`
raises (`none`). -/
def ebFieldLoop (forms : List Form) (line : List Char) :
    Nat → Nat → Int → EVars → List Int →
      Option (EVars × List Int × Int)
  | _, 0, start, vars, fields => some (vars, fields, start)
  | i, r + 1, start, vars, fields =>
    let vars2 :=
      match forms.get? i with
      | none => vars
      | some f =>
        let e := start + f.2.1
        match pyInt? (pySlice line start e) with
        | none => { vars with endv := some e }
        | some v => ⟨some v, some e⟩
    match vars2.fieldv, vars2.endv with
    | some fv, some ev =>
      ebFieldLoop forms line (i + 1) r ev vars2 (fields ++ [fv])
    | _, _ => none

/-- Inner `while True` of the EBLOCK continuation: parses repeatedly at
`forms[field_count]` from offset `start`, neither of which is ever
advanced in the source, so a successful parse appends forever (fuel
exhaustion, `none` = divergence) and a failure breaks immediately. -/
def ebInner (forms : List Form) (line : List Char) (field_count : Nat)
    (start : Int) : Nat → EVars → List Int → Option (EVars × List Int)
  | 0, _, _ => none
  | fuel + 1, vars, fields =>
    match forms.get? field_count with
    | none => some (vars, fields)
    | some f =>
      let e := start + f.2.1
      match pyInt? (pySlice line start e) with
      | none => some ({ vars with endv := some e }, fields)
      | some v =>
        ebInner forms line field_count start fuel ⟨some v, some e⟩
          (fields ++ [v])

/-- Outer continuation loop of a SOLID EBLOCK record:
`while field_count < fields[8] + 11`.  `field_count` is never changed
(the source's `++field_count` is a double unary plus, a no-op), so the
guard can only be exited if it was false on entry; fuel exhaustion
(`none`) models the resulting divergence. -/
def ebCont (forms : List Form) (field_count : Nat) :
    Nat → EVars → List Int → List (List Char) →
      Option (EVars × List Int × List (List Char))
  | 0, vars, fields, lines =>
    match fields.get? 8 with
    | none => none
    | some n8 =>
      if (field_count : Int) < n8 + 11 then none
      else some (vars, fields, lines)
  | fuel2 + 1, vars, fields, lines =>
    match fields.get? 8 with
    | none => none
    | some n8 =>
      if (field_count : Int) < n8 + 11 then
        match readline lines with
        | (line, rest) =>
          match ebInner forms line field_count 0 fuel2 vars fields with
          | none => none
          | some (vars2, fields2) =>
            ebCont forms field_count fuel2 vars2 fields2 rest
      else some (vars, fields, lines)

/-- Field loop of a non-SOLID EBLOCK record: any failure aborts the
whole EBLOCK (`return`), reported as `none` here and mapped to a normal
exit by the caller. -/
def ebFieldLoopNS (forms : List Form) (line : List Char) :
    Nat → Nat → Int → List Int → Option (List Int)
  | _, 0, _, fields => some fields
  | i, r + 1, start, fields =>
    match forms.get? i with
    | none => none
    | some f =>
      let e := start + f.2.1
      match pyInt? (pySlice line start e) with
      | none => none
      | some v => ebFieldLoopNS forms line (i + 1) r e (fields ++ [v])

def startsWithDash : List Char → Bool
  | '-' :: _ => true
  | _ => false

/-- Record loop of `readEBLOCK`.  `none` models an uncaught exception
or divergence; a `-`-line ends the block. -/
def eblockRecords (forms : List Form) (num_fields : Nat)
    (isSOLID : Bool) :
    Nat → PState → EVars → List (List Char) →
      Option (PState × List (List Char))
  | 0, _, _, _ => none
  | fuel + 1, st, vars, lines =>
    match readline lines with
    | (element_line, rest) =>
      if startsWithDash (pyStrip element_line) then some (st, rest)
      else if isSOLID then
        match ebFieldLoop forms element_line 0 num_fields 0 vars [] with
        | none => none
        | some (vars1, fields1, _) =>
          let field_count := fields1.length
          if field_count < 8 then some (st, rest)
          else
            match ebCont forms field_count (rest.length + 1) vars1 fields1
                rest with
            | none => none
            | some (vars2, fields2, rest2) =>
              match fields2.get? 10 with
              | none => some (st, rest2)
              | some element_number =>
                let element_data :=
                  [fields2.getD 0 0, fields2.getD 2 0, fields2.getD 1 0]
                    ++ fields2.drop 11
                eblockRecords forms num_fields isSOLID fuel
                  { st with global_e :=
                      dictInsert st.global_e element_number element_data }
                  vars2 rest2
      else
        match ebFieldLoopNS forms element_line 0 num_fields 0 [] with
        | none => some (st, rest)
        | some fields =>
          if fields.length < 4 then some (st, rest)
          else
            let element_data :=
              [fields.getD 3 0, fields.getD 2 0, fields.getD 1 0] ++
                fields.drop 5
            eblockRecords forms num_fields isSOLID fuel
              { st with global_e :=
                  dictInsert st.global_e (fields.getD 0 0) element_data }
              vars rest

/-- `readEBLOCK`. -/
def readEBLOCK (tokens : List (List Char)) (st : PState)
    (lines : List (List Char)) : Option (PState × List (List Char)) :=
  if tokens.length < 3 then some (st, lines)
  else
    match pyInt? (tokens.getD 1 []) with
    | none => some (st, lines)
    | some nf =>
      let isSOLID := tokens.getD 2 [] = "solid".toList
      match readline lines with
      | (fline, rest) =>
        let forms := detectFormat fline
        if (isSOLID ∧ forms.length < 12) ∨ forms.length < 6 then
          some (st, rest)
        else eblockRecords forms nf.toNat isSOLID (rest.length + 1) st
          ⟨none, none⟩ rest

/-- `parseCommand`: tokenize and dispatch one command line. -/
def parseCommand (first_line : List Char) (st : PState)
    (lines : List (List Char)) : Option (PState × List (List Char)) :=
  let tokens := (splitComma first_line).map fun t => pyLower (pyStrip t)
  let command := tokens.getD 0 []
  if command = "n".toList then some (readN tokens st, lines)
  else if command = "en".toList then some (readEN tokens st, lines)
  else if command = "nblock".toList then readNBLOCK st lines
  else if command = "eblock".toList then readEBLOCK tokens st lines
  else if command = "et".toList then
    (readET tokens st).map fun st2 => (st2, lines)
  else if command = "type".toList then some (readTYPE tokens st, lines)
  else if command = "mat".toList then some (readMAT tokens st, lines)
  else if command = "real".toList then some (readREAL tokens st, lines)
  else some (st, lines)

/-- Main line loop of `read3DMesh`.  Fuel is the line count plus one;
every iteration consumes at least the command line, so fuel suffices
for every terminating run. -/
def runLines : Nat → PState → List (List Char) → Option PState
  | _, st, [] => some st
  | 0, _, _ => none
  | fuel + 1, st, l :: rest =>
    match parseCommand (l ++ ['\n']) st rest with
    | none => none
    | some (st2, rest2) => runLines fuel st2 rest2

/-- `read3DMesh` on the lines of a file. -/
def read3DMesh (lines : List (List Char)) : Option PState :=
  runLines (lines.length + 1) initPState lines

/-! ## CDB writer (`export_cdb.py`) -/

def padLeftTo (w : Nat) (s : List Char) : List Char :=
  List.replicate (w - s.length) ' ' ++ s

/-- Python `"%8i" % k` (and the other fixed integer widths). -/
def fmtI (w : Nat) (k : Int) : List Char := padLeftTo w (toString k).toList

/-- Python `"%16.9g" % v` restricted to integral values of at most nine
significant digits — the only values the verified round-trip writes —
which print as a right-aligned integer in a 16-character field. -/
def fmtG16 (k : Int) : List Char := padLeftTo 16 (toString k).toList

/-- `writeNBLOCK`: header, format line, one record per node, dummy `N`
terminator. -/
def writeNBLOCK (n : List (Int × Coord)) : List (List Char) :=
  ["NBLOCK,6,SOLID".toList, "(3i8,6g16.9)".toList] ++
    (n.map fun p =>
      fmtI 8 p.1 ++ fmtI 8 0 ++ fmtI 8 0 ++ fmtG16 p.2.1 ++
        fmtG16 p.2.2.1 ++ fmtG16 p.2.2.2) ++
    ["N,R5.3,LOC,-1,".toList]

/-- Polygon-arity mapping of `writeEBLOCK`: element type and written
node tuple, or `None` for a skipped arity. -/
def faceNodes (face : List Int) : Option (Int × List Int) :=
  if face.length = 4 then some (1, face)
  else if face.length = 8 then some (2, face)
  else if face.length = 3 then
    some (1, [face.getD 0 0, face.getD 1 0, face.getD 2 0, face.getD 2 0])
  else if face.length = 6 then
    some (2, [face.getD 0 0, face.getD 2 0, face.getD 4 0, face.getD 4 0,
      face.getD 1 0, face.getD 3 0, face.getD 4 0, face.getD 5 0])
  else none

/-- One EBLOCK record line: 15 8-wide integer fields, plus 4 more for
8-node shells. -/
def shellRecord (element_mat element_type element_real element_number :
    Int) (nodes : List Int) : List Char :=
  fmtI 8 element_mat ++ fmtI 8 element_type ++ fmtI 8 element_real ++
    fmtI 8 1 ++ fmtI 8 0 ++ fmtI 8 0 ++ fmtI 8 0 ++ fmtI 8 0 ++
    fmtI 8 (nodes.length : Int) ++ fmtI 8 0 ++ fmtI 8 element_number ++
    fmtI 8 (nodes.getD 0 0) ++ fmtI 8 (nodes.getD 1 0) ++
    fmtI 8 (nodes.getD 2 0) ++ fmtI 8 (nodes.getD 3 0) ++
    (if 4 < nodes.length then
      fmtI 8 (nodes.getD 4 0) ++ fmtI 8 (nodes.getD 5 0) ++
        fmtI 8 (nodes.getD 6 0) ++ fmtI 8 (nodes.getD 7 0)
     else [])

/-- Faces of one input object; the element number advances only for
written records. -/
def writeFaceList (element_mat element_real : Int) :
    List (List Int) → Int → (List (List Char) × Int)
  | [], element_number => ([], element_number)
  | face :: fs, element_number =>
    match faceNodes face with
    | none => writeFaceList element_mat element_real fs element_number
    | some (etype, nodes) =>
      match writeFaceList element_mat element_real fs
          (element_number + 1) with
      | (restLines, en2) =>
        (shellRecord element_mat etype element_real element_number nodes
          :: restLines, en2)

/-- Object loop of `writeEBLOCK`: material and real-constant numbers
optionally advance once per input object. -/
def writeObjects (inc_mat inc_real : Bool) :
    List (List (List Int)) → Int → Int → Int → List (List Char)
  | [], _, _, _ => []
  | fl :: rest, element_number, element_mat, element_real =>
    match writeFaceList element_mat element_real fl element_number with
    | (objLines, en2) =>
      objLines ++ writeObjects inc_mat inc_real rest en2
        (if inc_mat then element_mat + 1 else element_mat)
        (if inc_real then element_real + 1 else element_real)

/-- `writeEBLOCK`: header with total face count, format line, records,
`-1` terminator. -/
def writeEBLOCK (faces : List (List (List Int))) (init_mat : Int)
    (inc_mat : Bool) (init_real : Int) (inc_real : Bool) :
    List (List Char) :=
  (("EBLOCK,19,SOLID," ++ toString (faces.map List.length).sum).toList ::
      "(19i8)".toList ::
      writeObjects inc_mat inc_real faces 1 init_mat init_real) ++
    ["-1,".toList]

/-- `write`: preamble, the two fixed `ET` lines, NBLOCK, EBLOCK,
`FINISH`. -/
def writeCDB (n : List (Int × Coord)) (faces : List (List (List Int)))
    (initial_mat : Int) (increment_mat : Bool) (initial_real : Int)
    (increment_real : Bool) : List (List Char) :=
  ["/PREP7".toList, "/TITLE,".toList, "ET,1,63".toList,
      "ET,2,93".toList] ++
    writeNBLOCK n ++
    writeEBLOCK faces initial_mat increment_mat initial_real
      increment_real ++
    ["FINISH".toList]

/-! ## The unit-cube round trip (C4 scenario) -/

/-- Unit cube: 8 nodes with 8 distinct (integral) coordinates. -/
def cubeN : List (Int × Coord) :=
  [(1, (0, 0, 0)), (2, (1, 0, 0)), (3, (1, 1, 0)), (4, (0, 1, 0)),
   (5, (0, 0, 1)), (6, (1, 0, 1)), (7, (1, 1, 1)), (8, (0, 1, 1))]

/-- Unit cube: one object with its 6 quadrilateral faces, outward
wound. -/
def cubeFaces : List (List (List Int)) :=
  [[[1, 2, 3, 4], [5, 8, 7, 6], [1, 5, 6, 2], [2, 6, 7, 3],
    [3, 7, 8, 4], [4, 8, 5, 1]]]

/-- Write the unit cube, re-read the text, extract outer faces with
`remove_duplicates = true`, renumber, and report the face and vertex
counts of the resulting `(material, real) = (1, 1)` mesh. -/
def cubeRoundTrip : Option (Nat × Nat) :=
  match read3DMesh (writeCDB cubeN cubeFaces 1 false 1 false) with
  | none => none
  | some st =>
    match get_faces st.global_e st.global_et true with
    | none => none
    | some outer =>
      match renumber st.global_n outer with
      | none => none
      | some vf =>
        match (dictLookup vf (1, 1)).getD ([], []) with
        | (verts, faces) => some (faces.length, verts.length)

/-! # Theorems -/

theorem dictLookup_isSome_iff [DecidableEq κ] (d : List (κ × ν)) (key : κ) :
    (dictLookup d key).isSome ↔ key ∈ d.map Prod.fst := by
  induction d with
  | nil => simp [dictLookup]
  | cons p t ih =>
    obtain ⟨k, v⟩ := p
    by_cases h : k = key
    · subst h; simp [dictLookup]
    · simp [dictLookup, h, ih, Ne.symm h]

theorem mem_setAdd [DecidableEq α] (s : List α) (x y : α) :
    y ∈ setAdd s x ↔ y ∈ s ∨ y = x := by
  unfold setAdd
  by_cases h : x ∈ s
  · rw [if_pos h]
    constructor
    · exact Or.inl
    · rintro (hy | rfl)
      · exact hy
      · exact h
  · rw [if_neg h]
    simp

theorem min_index_eq_upto (f : List Int) :
    min_index f = min_index_upto f (f.length - 1) := rfl

theorem min_index_upto_succ (f : List Int) (n : Nat) :
    min_index_upto f (n + 1) =
      (if f.getD (n + 1) 0 < f.getD (min_index_upto f n) 0 then n + 1
       else min_index_upto f n) := by
  unfold min_index_upto
  rw [List.range_succ, List.foldl_append]
  rfl

theorem min_index_upto_le (f : List Int) (n : Nat) : min_index_upto f n ≤ n := by
  induction n with
  | zero => exact Nat.le_refl _
  | succ n ih =>
    rw [min_index_upto_succ]
    split
    · exact Nat.le_refl _
    · exact Nat.le_succ_of_le ih

theorem min_index_upto_min (f : List Int) (n : Nat) :
    ∀ j ≤ n, f.getD (min_index_upto f n) 0 ≤ f.getD j 0 := by
  induction n with
  | zero =>
    intro j hj
    interval_cases j
    exact Int.le_refl _
  | succ n ih =>
    intro j hj
    rw [min_index_upto_succ]
    split
    · rename_i hlt
      rcases Nat.lt_or_ge j (n + 1) with hj' | hj'
      · exact le_of_lt (lt_of_lt_of_le hlt (ih j (Nat.lt_succ_iff.mp hj')))
      · have hje : j = n + 1 := Nat.le_antisymm hj hj'
        subst hje
        exact Int.le_refl _
    · rename_i hge
      rcases Nat.lt_or_ge j (n + 1) with hj' | hj'
      · exact ih j (Nat.lt_succ_iff.mp hj')
      · have hje : j = n + 1 := Nat.le_antisymm hj hj'
        subst hje
        exact le_of_not_lt hge

theorem min_index_lt (f : List Int) (h : f ≠ []) : min_index f < f.length := by
  have hlen : 0 < f.length := List.length_pos.mpr h
  have hle := min_index_upto_le f (f.length - 1)
  rw [min_index_eq_upto]
  omega

theorem min_index_min (f : List Int) :
    ∀ j < f.length, f.getD (min_index f) 0 ≤ f.getD j 0 := by
  intro j hj
  rw [min_index_eq_upto]
  exact min_index_upto_min f (f.length - 1) j (by omega)

/-- When the head of the list is a minimum, the strict comparisons in the
loop never fire, so `min_index` stays 0. -/
theorem min_index_eq_zero (f : List Int)
    (h : ∀ j < f.length, f.getD 0 0 ≤ f.getD j 0) : min_index f = 0 := by
  rw [min_index_eq_upto]
  have key : ∀ n, n ≤ f.length - 1 → min_index_upto f n = 0 := by
    intro n
    induction n with
    | zero => intro _; rfl
    | succ n ih =>
      intro hn
      rw [min_index_upto_succ, ih (by omega), if_neg]
      exact not_lt.mpr (h (n + 1) (by omega))
  exact key _ (Nat.le_refl _)

/-! ### order_face as a rotation -/

theorem getD_eq_getElem (f : List Int) (i : Nat) (h : i < f.length) :
    f.getD i 0 = f[i] := by
  rw [List.getD_eq_getElem?_getD, List.getElem?_eq_getElem h]
  rfl

theorem order_face_eq_rotate (f : List Int) (h : f ≠ []) :
    order_face f = f.rotate (min_index f) := by
  have hlen : 0 < f.length := List.length_pos.mpr h
  have hmi := min_index_lt f h
  have hne0 : ¬ f.length = 0 := by omega
  unfold order_face
  rw [if_neg hne0]
  apply List.ext_getElem
  · rw [List.length_map, List.length_range, List.length_rotate]
  · intro i h1 h2
    rw [List.length_map, List.length_range] at h1
    rw [List.getElem_map, List.getElem_range, List.getElem_rotate]
    have hidx :
        (if f.length ≤ min_index f + i then min_index f + i - f.length
         else min_index f + i) = (i + min_index f) % f.length := by
      split
      · rename_i hge
        rw [Nat.add_comm i (min_index f), Nat.mod_eq_sub_mod hge,
          Nat.mod_eq_of_lt (by omega)]
      · rename_i hlt
        rw [Nat.add_comm i (min_index f), Nat.mod_eq_of_lt (by omega)]
    rw [hidx]
    exact getD_eq_getElem f _ (Nat.mod_lt _ hlen)

/-! ### Repetitions at two positions force a count of at least two -/

theorem two_le_count_of_getElem_lt (l : List Int) (m : Int) {i j : Nat}
    (hij : i < j) (hj : j < l.length) (hvi : ∀ hi : i < l.length, l[i] = m)
    (hvj : l[j] = m) : 2 ≤ l.count m := by
  rw [← List.duplicate_iff_two_le_count, List.duplicate_iff_sublist]
  have hi : i < l.length := lt_trans hij hj
  have h1 : m ∈ l.take j := by
    have hlt : i < (l.take j).length := by
      rw [List.length_take]; omega
    have hmm := List.getElem_mem hlt
    have he : (l.take j)[i] = m := by
      rw [List.getElem_take]
      exact hvi hi
    rwa [he] at hmm
  have h2 : m ∈ l.drop j := by
    have hlt : 0 < (l.drop j).length := by
      rw [List.length_drop]; omega
    have hmm := List.getElem_mem hlt
    have he : (l.drop j)[0] = m := by
      rw [List.getElem_drop]
      simpa using hvj
    rwa [he] at hmm
  have hs : ([m] ++ [m]).Sublist (l.take j ++ l.drop j) :=
    List.Sublist.append (List.singleton_sublist.mpr h1)
      (List.singleton_sublist.mpr h2)
  rw [List.take_append_drop] at hs
  exact hs

theorem getD_eq_of_count_one (l : List Int) (m : Int)
    (hc : l.count m = 1) {i j : Nat} (hi : i < l.length) (hj : j < l.length)
    (hvi : l.getD i 0 = m) (hvj : l.getD j 0 = m) : i = j := by
  rw [getD_eq_getElem l i hi] at hvi
  rw [getD_eq_getElem l j hj] at hvj
  rcases Nat.lt_trichotomy i j with hlt | heq | hgt
  · have := two_le_count_of_getElem_lt l m hlt hj (fun _ => hvi) hvj
    omega
  · exact heq
  · have := two_le_count_of_getElem_lt l m hgt hi (fun _ => hvj) hvi
    omega

/-! ### C2: rotation invariance of canonicalization -/

/-- C2 counterexample: with a repeated minimum node id, canonicalization
is not invariant under cyclic rotation.  `[1, 3, 1, 2]` is the rotation
of `[1, 2, 1, 3]` by two places, yet both are fixed points of
`order_face` and differ. -/
theorem order_face_rotation_cex :
    ([1, 3, 1, 2] : List Int) = ([1, 2, 1, 3] : List Int).rotate 2 ∧
      order_face ([1, 3, 1, 2] : List Int) ≠
        order_face ([1, 2, 1, 3] : List Int) := by
  constructor
  · decide
  · decide

/-- Value found at `min_index` is a minimum of the list. -/
theorem getD_min_index_eq (f : List Int) (m : Int) (l : List Int)
    (hp : l.Perm f) (hlne : l ≠ []) (hm : m ∈ f) (hmin : ∀ a ∈ f, m ≤ a) :
    l.getD (min_index l) 0 = m := by
  have hlt : min_index l < l.length := min_index_lt l hlne
  have hmem : l.getD (min_index l) 0 ∈ l := by
    rw [getD_eq_getElem l _ hlt]
    exact List.getElem_mem hlt
  have h1 : m ≤ l.getD (min_index l) 0 := hmin _ (hp.mem_iff.mp hmem)
  have hml : m ∈ l := hp.mem_iff.mpr hm
  obtain ⟨k, hk, hkm⟩ := List.getElem_of_mem hml
  have h2 := min_index_min l k hk
  rw [getD_eq_getElem l k hk, hkm] at h2
  omega

/-- C2 amended: `order_face` is invariant under every cyclic rotation of
the input tuple provided the minimum entry occurs exactly once in it. -/
theorem order_face_rotate_eq (f : List Int) (n : Nat) (m : Int)
    (hm : m ∈ f) (hmin : ∀ a ∈ f, m ≤ a) (hone : f.count m = 1) :
    order_face (f.rotate n) = order_face f := by
  have hne : f ≠ [] := by
    rintro rfl
    simp at hm
  have hlen : 0 < f.length := List.length_pos.mpr hne
  have hgne : f.rotate n ≠ [] := by
    intro hgnil
    have hl := List.length_rotate f n
    rw [hgnil] at hl
    simp at hl
    omega
  have hperm : (f.rotate n).Perm f := List.rotate_perm f n
  have hmif : min_index f < f.length := min_index_lt f hne
  have hmig : min_index (f.rotate n) < (f.rotate n).length :=
    min_index_lt _ hgne
  rw [order_face_eq_rotate _ hgne, order_face_eq_rotate f hne,
    List.rotate_rotate, ← List.rotate_mod f (n + min_index (f.rotate n)),
    ← List.rotate_mod f (min_index f)]
  congr 1
  have hv1 : f.getD ((min_index (f.rotate n) + n) % f.length) 0 = m := by
    have hval := getD_min_index_eq f m (f.rotate n) hperm hgne hm hmin
    rw [getD_eq_getElem _ _ (min_index_lt _ hgne),
      List.getElem_rotate] at hval
    rw [getD_eq_getElem f _ (Nat.mod_lt _ hlen)]
    exact hval
  have hv2 : f.getD (min_index f) 0 = m :=
    getD_min_index_eq f m f (List.Perm.refl f) hne hm hmin
  have huniq :=
    getD_eq_of_count_one f m hone (Nat.mod_lt _ hlen) hmif hv1 hv2
  rw [Nat.add_comm n (min_index (f.rotate n)), huniq,
    Nat.mod_eq_of_lt hmif]

/-- Witness for the amended C2 theorem at a concrete input. -/
theorem order_face_rotate_eq_witness :
    (1 : Int) ∈ ([2, 1, 3] : List Int) ∧
      (∀ a ∈ ([2, 1, 3] : List Int), (1 : Int) ≤ a) ∧
      ([2, 1, 3] : List Int).count 1 = 1 ∧
      order_face (([2, 1, 3] : List Int).rotate 1) =
        order_face ([2, 1, 3] : List Int) :=
  ⟨by decide, by decide, by decide,
    order_face_rotate_eq [2, 1, 3] 1 1 (by decide) (by decide) (by decide)⟩

/-! ### C10: inverse_face on canonical faces -/

theorem inverse_face_cons (x : Int) (t : List Int) :
    inverse_face (x :: t) = x :: t.reverse := by
  have hdef : inverse_face (x :: t)
      = x :: (List.range ((x :: t).length - 1)).map
          (fun i => (x :: t).getD ((x :: t).length - i - 1) 0) := rfl
  rw [hdef]
  congr 1
  apply List.ext_getElem
  · simp
  · intro i h1 h2
    rw [List.length_map, List.length_range, List.length_cons] at h1
    simp only [Nat.add_sub_cancel] at h1
    rw [List.getElem_map, List.getElem_range]
    have hidx : (x :: t).length - i - 1 = (t.length - 1 - i) + 1 := by
      rw [List.length_cons]
      omega
    rw [hidx]
    have hstep : (x :: t).getD ((t.length - 1 - i) + 1) 0
        = t.getD (t.length - 1 - i) 0 := rfl
    rw [hstep, getD_eq_getElem t _ (by omega), List.getElem_reverse]

/-- C10: for a face in canonical form (minimum entry first),
`inverse_face` keeps that minimum in position 0, its result is itself
canonical (a fixed point of `order_face`), and `inverse_face` is an
involution. -/
theorem inverse_face_canonical (f : List Int) (hne : f ≠ [])
    (hmin : ∀ a ∈ f, f.getD 0 0 ≤ a) :
    (inverse_face f).getD 0 0 = f.getD 0 0 ∧
      order_face (inverse_face f) = inverse_face f ∧
      inverse_face (inverse_face f) = f := by
  obtain ⟨x, t, rfl⟩ := List.exists_cons_of_ne_nil hne
  rw [inverse_face_cons]
  refine ⟨rfl, ?_, by rw [inverse_face_cons, List.reverse_reverse]⟩
  have hmin' : ∀ j < (x :: t.reverse).length,
      (x :: t.reverse).getD 0 0 ≤ (x :: t.reverse).getD j 0 := by
    intro j hj
    have hmem : (x :: t.reverse).getD j 0 ∈ x :: t.reverse := by
      rw [getD_eq_getElem _ j hj]
      exact List.getElem_mem hj
    have hmem' : (x :: t.reverse).getD j 0 ∈ x :: t := by
      rcases List.mem_cons.mp hmem with hcase | hcase
      · rw [hcase]; exact List.mem_cons_self x t
      · exact List.mem_cons_of_mem x (List.mem_reverse.mp hcase)
    exact hmin _ hmem'
  rw [order_face_eq_rotate _ (List.cons_ne_nil x t.reverse),
    min_index_eq_zero _ hmin', List.rotate_zero]

/-! ### C1: outer-face classification -/

theorem mem_outer_foldl (q : List Int → Bool) (cf : List (List Int × Nat))
    (acc : List (List Int)) (x : List Int) :
    x ∈ cf.foldl (fun acc p => if q p.1 then setAdd acc p.1 else acc) acc ↔
      x ∈ acc ∨ (x ∈ cf.map Prod.fst ∧ q x = true) := by
  induction cf generalizing acc with
  | nil => simp
  | cons p t ih =>
    simp only [List.foldl_cons, List.map_cons, List.mem_cons]
    rw [ih]
    by_cases hq : q p.1 = true
    · rw [if_pos hq, mem_setAdd]
      constructor
      · rintro ((hx | rfl) | hr)
        · exact Or.inl hx
        · exact Or.inr ⟨Or.inl rfl, hq⟩
        · exact Or.inr ⟨Or.inr hr.1, hr.2⟩
      · rintro (hx | ⟨hm | hm, hqx⟩)
        · exact Or.inl (Or.inl hx)
        · subst hm; exact Or.inl (Or.inr rfl)
        · exact Or.inr ⟨hm, hqx⟩
    · rw [if_neg hq]
      constructor
      · rintro (hx | hr)
        · exact Or.inl hx
        · exact Or.inr ⟨Or.inr hr.1, hr.2⟩
      · rintro (hx | ⟨hm | hm, hqx⟩)
        · exact Or.inl hx
        · subst hm; exact absurd hqx hq
        · exact Or.inr ⟨hm, hqx⟩

theorem dictLookup_get_outer_faces
    (counted : List ((Int × Int) × List (List Int × Nat))) (rd : Bool)
    (gid : Int × Int) :
    dictLookup (get_outer_faces counted rd) gid =
      (dictLookup counted gid).map fun c => outerOfGroup c rd := by
  induction counted with
  | nil => rfl
  | cons p t ih =>
    by_cases hk : p.1 = gid
    · simp [get_outer_faces, dictLookup, hk]
    · simp only [get_outer_faces, List.map_cons, dictLookup, hk, if_false]
      exact ih

/-- C1: for groups built by face extraction, a canonical face `f` is
classified as outer exactly when its orientation-inverted counterpart is
absent from the group's counted-face map and, if `remove_duplicates` is
set, the recorded occurrence count of `f` is 1. -/
theorem outer_face_classification (E : List (Int × List Int))
    (ET : List (Int × Int)) (rd : Bool)
    (counted : List ((Int × Int) × List (List Int × Nat)))
    (_h : get_all_faces E ET = some counted) (gid : Int × Int)
    (f : List Int) :
    f ∈ (dictLookup (get_outer_faces counted rd) gid).getD [] ↔
      f ∈ ((dictLookup counted gid).getD []).map Prod.fst ∧
        dictContains ((dictLookup counted gid).getD [])
          (inverse_face f) = false ∧
        (rd = true →
          dictLookup ((dictLookup counted gid).getD []) f = some 1) := by
  clear _h
  rw [dictLookup_get_outer_faces]
  cases hc : dictLookup counted gid with
  | none => simp
  | some cf =>
    simp only [Option.map_some', Option.getD_some]
    rw [outerOfGroup, mem_outer_foldl (outerCond cf rd) cf [] f]
    simp only [List.not_mem_nil, false_or]
    constructor
    · rintro ⟨hmem, hcond⟩
      rw [outerCond, Bool.and_eq_true, Bool.not_eq_true',
        Bool.or_eq_true, Bool.not_eq_true'] at hcond
      obtain ⟨hinv, hcnt⟩ := hcond
      refine ⟨hmem, hinv, ?_⟩
      intro hrd
      rcases hcnt with hrdf | hone
      · rw [hrd] at hrdf; cases hrdf
      · have hsome : (dictLookup cf f).isSome :=
          (dictLookup_isSome_iff cf f).mpr hmem
        obtain ⟨c, hcv⟩ := Option.isSome_iff_exists.mp hsome
        rw [hcv]
        rw [hcv] at hone
        simp only [Option.getD_some, beq_iff_eq] at hone
        rw [hone]
    · rintro ⟨hmem, hinv, hcnt⟩
      refine ⟨hmem, ?_⟩
      rw [outerCond, Bool.and_eq_true, Bool.not_eq_true',
        Bool.or_eq_true, Bool.not_eq_true']
      refine ⟨hinv, ?_⟩
      cases hrd : rd with
      | false => exact Or.inl rfl
      | true =>
        refine Or.inr ?_
        rw [hcnt hrd]
        simp

/-- Witness for C1 at a single SHELL63 element. -/
theorem outer_face_classification_witness :
    get_all_faces [(10, [2, 3, 1, 1, 2, 3, 4])] [(1, 63)] =
        some [((2, 3), [([1, 2, 3, 4], 1)])] ∧
      ([1, 2, 3, 4] ∈
          (dictLookup
            (get_outer_faces
              ([((2, 3), [([1, 2, 3, 4], 1)])] :
                List ((Int × Int) × List (List Int × Nat))) true)
            (2, 3)).getD [] ↔
        ([1, 2, 3, 4] : List Int) ∈
            ((dictLookup
              ([((2, 3), [([1, 2, 3, 4], 1)])] :
                List ((Int × Int) × List (List Int × Nat))) (2, 3)).getD
              []).map Prod.fst ∧
          dictContains
            ((dictLookup
              ([((2, 3), [([1, 2, 3, 4], 1)])] :
                List ((Int × Int) × List (List Int × Nat))) (2, 3)).getD [])
            (inverse_face [1, 2, 3, 4]) = false ∧
          (true = true →
            dictLookup
              ((dictLookup
                ([((2, 3), [([1, 2, 3, 4], 1)])] :
                  List ((Int × Int) × List (List Int × Nat))) (2, 3)).getD
                [])
              [1, 2, 3, 4] = some 1)) :=
  ⟨by decide,
    outer_face_classification [(10, [2, 3, 1, 1, 2, 3, 4])] [(1, 63)] true
      [((2, 3), [([1, 2, 3, 4], 1)])] (by decide) (2, 3) [1, 2, 3, 4]⟩

/-! ### C3: fully collapsed SOLID45 element -/

/-- C3 (code defect): an element of family 45 with `v3 = v4` and
`v5 = v6 = v7 = v8` is routed to the wedge branch (whose guard
`v3 == v4 and v7 == v8` matches first), not the unreachable
tetrahedron branch.  The group's outer faces are one triangle and three
degenerate quadrilaterals, not four triangles. -/
theorem collapsed_tet_faces :
    get_faces [(1, [1, 1, 1, 1, 2, 3, 3, 4, 4, 4, 4])] [(1, 45)] true =
        some [((1, 1),
          [[1, 3, 2], [1, 2, 4, 4], [2, 3, 4, 4], [1, 4, 4, 3]])] ∧
      ¬ (∀ f ∈ [[(1 : Int), 3, 2], [1, 2, 4, 4], [2, 3, 4, 4], [1, 4, 4, 3]],
          List.length f = 3) :=
  ⟨by decide, by decide⟩

/-! ### C5: dangling node references in renumbering -/

theorem renumNodes_some_contains (N : List (Int × Coord)) (vs : List Int)
    (st : RSt) (face : List Nat) (res : RSt × List Nat)
    (h : renumNodes N vs st face = some res) :
    ∀ v ∈ vs, dictContains N v = true := by
  induction vs generalizing st face with
  | nil => intro v hv; cases hv
  | cons v0 vs ih =>
    intro v hv
    rw [renumNodes] at h
    cases hN : dictLookup N v0 with
    | none =>
      simp only [hN] at h
      exact Option.noConfusion h
    | some coord =>
      simp only [hN] at h
      rcases List.mem_cons.mp hv with rfl | hv2
      · rw [dictContains, hN]; rfl
      · cases hvc : dictLookup st.vc coord with
        | some i =>
          simp only [hvc] at h
          exact ih _ _ h v hv2
        | none =>
          simp only [hvc] at h
          exact ih _ _ h v hv2

theorem renumFaces_some_contains (N : List (Int × Coord))
    (fl : List (List Int)) (st : RSt) (fs : List (List Nat))
    (res : RSt × List (List Nat)) (h : renumFaces N fl st fs = some res) :
    ∀ f ∈ fl, ∀ v ∈ f, dictContains N v = true := by
  induction fl generalizing st fs with
  | nil => intro f hf; cases hf
  | cons f0 fl ih =>
    intro f hf v hv
    rw [renumFaces] at h
    cases hn : renumNodes N f0 st [] with
    | none =>
      simp only [hn] at h
      exact Option.noConfusion h
    | some p =>
      obtain ⟨st2, face⟩ := p
      simp only [hn] at h
      rcases List.mem_cons.mp hf with rfl | hf2
      · exact renumNodes_some_contains N f st [] (st2, face) hn v hv
      · exact ih _ _ h f hf2 v hv

theorem renumber_foldl_none (N : List (Int × Coord))
    (F : List ((Int × Int) × List (List Int))) :
    F.foldl (renumberStep N) none = none := by
  induction F with
  | nil => rfl
  | cons g F ih =>
    rw [List.foldl_cons]
    exact ih

theorem renumber_foldl_groups (N : List (Int × Coord))
    (F : List ((Int × Int) × List (List Int)))
    (acc : Option (List ((Int × Int) × (List Coord × List (List Nat)))))
    (out : List ((Int × Int) × (List Coord × List (List Nat))))
    (h : F.foldl (renumberStep N) acc = some out) :
    ∀ g ∈ F, ∃ vf, renumberGroup N g.2 = some vf := by
  induction F generalizing acc with
  | nil => intro g hg; cases hg
  | cons g0 F ih =>
    intro g hg
    rw [List.foldl_cons] at h
    rcases List.mem_cons.mp hg with rfl | hg2
    · by_contra hno
      push_neg at hno
      have hnone : renumberStep N acc g = none := by
        cases acc with
        | none => rfl
        | some o =>
          cases hr : renumberGroup N g.2 with
          | none => simp only [renumberStep, hr]
          | some vf => exact absurd hr (hno vf)
      rw [hnone, renumber_foldl_none] at h
      exact Option.noConfusion h
    · exact ih _ h g hg2

/-- C5 counterexample: a face referencing node ids absent from the node
table makes `renumber` fail (`KeyError` in the source) instead of being
silently dropped. -/
theorem renumber_dangling_cex :
    renumber [] [((1, 1), [[1, 2, 3]])] = none := rfl

/-- C5 amended: when `renumber` returns a result (no exception), every
node id referenced by every input face is present in the node table; a
dangling reference never reaches emission because it aborts the whole
pipeline with an error rather than being dropped. -/
theorem renumber_no_dangling (N : List (Int × Coord))
    (F : List ((Int × Int) × List (List Int)))
    (out : List ((Int × Int) × (List Coord × List (List Nat))))
    (h : renumber N F = some out) :
    ∀ g ∈ F, ∀ f ∈ g.2, ∀ v ∈ f, dictContains N v = true := by
  intro g hg f hf v hv
  obtain ⟨vf, hvf⟩ := renumber_foldl_groups N F (some []) out h g hg
  rw [renumberGroup] at hvf
  cases hr : renumFaces N g.2 ⟨[], [], 0⟩ [] with
  | none =>
    simp only [hr] at hvf
    exact Option.noConfusion hvf
  | some p => exact renumFaces_some_contains N g.2 _ _ p hr f hf v hv

/-- Witness for the amended C5 theorem. -/
theorem renumber_no_dangling_witness :
    renumber [((1 : Int), ((0 : Int), (0 : Int), (0 : Int))), (2, (1, 0, 0)),
        (3, (0, 1, 0))] [(((1 : Int), (1 : Int)), [[(1 : Int), 2, 3]])] =
      some [((1, 1), ([(0, 0, 0), (1, 0, 0), (0, 1, 0)], [[0, 1, 2]]))] ∧
      ∀ g ∈ [(((1 : Int), (1 : Int)), [[(1 : Int), 2, 3]])], ∀ f ∈ g.2,
        ∀ v ∈ f,
        dictContains [((1 : Int), ((0 : Int), (0 : Int), (0 : Int))),
          (2, (1, 0, 0)), (3, (0, 1, 0))] v = true :=
  ⟨rfl,
    renumber_no_dangling
      [((1 : Int), ((0 : Int), (0 : Int), (0 : Int))), (2, (1, 0, 0)),
        (3, (0, 1, 0))]
      [(((1 : Int), (1 : Int)), [[(1 : Int), 2, 3]])]
      [((1, 1), ([(0, 0, 0), (1, 0, 0), (0, 1, 0)], [[0, 1, 2]]))]
      rfl⟩

/-! ### C7: density and order of the renumbered output -/

theorem dictLookup_dictInsert [DecidableEq κ] (d : List (κ × ν)) (k : κ)
    (v : ν) (k2 : κ) :
    dictLookup (dictInsert d k v) k2 =
      if k = k2 then some v else dictLookup d k2 := by
  induction d with
  | nil =>
    by_cases h : k = k2 <;> simp [dictInsert, dictLookup, h]
  | cons p t ih =>
    obtain ⟨pk, pv⟩ := p
    by_cases hp : pk = k
    · subst hp
      by_cases h : pk = k2 <;> simp [dictInsert, dictLookup, h]
    · by_cases h : pk = k2
      · subst h
        have hkk : ¬ k = pk := fun he => hp he.symm
        simp [dictInsert, dictLookup, hp, hkk]
      · simp [dictInsert, dictLookup, hp, h, ih]

/-- Loop invariant tying `vert_coords` to the vertex array. -/
def RInv (st : RSt) : Prop :=
  st.idx = st.verts.length ∧
    (∀ c : Coord, (dictLookup st.vc c).isSome ↔ c ∈ st.verts) ∧
    (∀ (c : Coord) (i : Nat), dictLookup st.vc c = some i →
      i < st.verts.length)

theorem fsStep_foldl_length [DecidableEq α] (cs : List α) (acc : List α) :
    acc.length ≤ (cs.foldl fsStep acc).length := by
  induction cs generalizing acc with
  | nil => exact Nat.le_refl _
  | cons c cs ih =>
    rw [List.foldl_cons]
    refine le_trans ?_ (ih (fsStep acc c))
    rw [fsStep]
    split
    · exact Nat.le_refl _
    · rw [List.length_append]; omega

theorem renumNodes_invariant (N : List (Int × Coord)) (vs : List Int)
    (st : RSt) (face : List Nat) (st2 : RSt) (face2 : List Nat)
    (h : renumNodes N vs st face = some (st2, face2)) (hinv : RInv st) :
    RInv st2 ∧
      st2.verts = (vs.filterMap (dictLookup N)).foldl fsStep st.verts ∧
      (∀ i ∈ face2, i ∈ face ∨ i < st2.verts.length) ∧
      st.verts.length ≤ st2.verts.length := by
  induction vs generalizing st face with
  | nil =>
    rw [renumNodes] at h
    injection h with h
    injection h with h1 h2
    subst h1; subst h2
    exact ⟨hinv, rfl, fun i hi => Or.inl hi, Nat.le_refl _⟩
  | cons v0 vs ih =>
    rw [renumNodes] at h
    cases hN : dictLookup N v0 with
    | none =>
      simp only [hN] at h
      exact Option.noConfusion h
    | some coord =>
      simp only [hN] at h
      rw [List.filterMap_cons, hN, List.foldl_cons]
      cases hvc : dictLookup st.vc coord with
      | some i =>
        simp only [hvc] at h
        have hmem : coord ∈ st.verts := by
          rw [← hinv.2.1 coord, hvc]; rfl
        have hfs : fsStep st.verts coord = st.verts := by
          rw [fsStep, if_pos hmem]
        obtain ⟨h1, h2, h3, h4⟩ := ih st (face ++ [i]) h hinv
        refine ⟨h1, by rw [hfs]; exact h2, ?_, h4⟩
        intro j hj
        rcases h3 j hj with hjm | hjl
        · rcases List.mem_append.mp hjm with hjf | hji
          · exact Or.inl hjf
          · have : j = i := List.mem_singleton.mp hji
            subst this
            exact Or.inr (lt_of_lt_of_le (hinv.2.2 coord j hvc) h4)
        · exact Or.inr hjl
      | none =>
        simp only [hvc] at h
        have hnmem : coord ∉ st.verts := by
          rw [← hinv.2.1 coord, hvc]
          simp
        have hfs : fsStep st.verts coord = st.verts ++ [coord] := by
          rw [fsStep, if_neg hnmem]
        set st1 : RSt :=
          ⟨st.verts ++ [coord], dictInsert st.vc coord st.idx,
            st.idx + 1⟩ with hst1
        have hinv1 : RInv st1 := by
          refine ⟨?_, ?_, ?_⟩
          · show st.idx + 1 = (st.verts ++ [coord]).length
            rw [List.length_append, List.length_singleton, hinv.1]
          · intro c
            show (dictLookup (dictInsert st.vc coord st.idx) c).isSome ↔
              c ∈ st.verts ++ [coord]
            rw [dictLookup_dictInsert]
            by_cases hc : coord = c
            · subst hc
              simp
            · rw [if_neg hc, hinv.2.1 c]
              simp [List.mem_append, Ne.symm hc]
          · intro c i hci
            show i < (st.verts ++ [coord]).length
            rw [dictLookup_dictInsert] at hci
            rw [List.length_append, List.length_singleton]
            by_cases hc : coord = c
            · rw [if_pos hc] at hci
              injection hci with hci
              subst hci
              rw [hinv.1]
              omega
            · rw [if_neg hc] at hci
              have := hinv.2.2 c i hci
              omega
        obtain ⟨h1, h2, h3, h4⟩ := ih st1 (face ++ [st.idx]) h hinv1
        have hlen1 : st.verts.length ≤ st1.verts.length := by
          show st.verts.length ≤ (st.verts ++ [coord]).length
          rw [List.length_append]
          omega
        refine ⟨h1, by rw [hfs]; exact h2, ?_, le_trans hlen1 h4⟩
        intro j hj
        rcases h3 j hj with hjm | hjl
        · rcases List.mem_append.mp hjm with hjf | hji
          · exact Or.inl hjf
          · have hji2 : j = st.idx := List.mem_singleton.mp hji
            subst hji2
            refine Or.inr (lt_of_lt_of_le ?_ h4)
            show st.idx < (st.verts ++ [coord]).length
            rw [List.length_append, List.length_singleton, hinv.1]
            omega
        · exact Or.inr hjl

theorem renumFaces_invariant (N : List (Int × Coord))
    (fl : List (List Int)) (st : RSt) (fs : List (List Nat)) (st2 : RSt)
    (fs2 : List (List Nat)) (h : renumFaces N fl st fs = some (st2, fs2))
    (hinv : RInv st)
    (hfs : ∀ face ∈ fs, ∀ i ∈ face, i < st.verts.length) :
    RInv st2 ∧
      st2.verts =
        (fl.flatten.filterMap (dictLookup N)).foldl fsStep st.verts ∧
      (∀ face ∈ fs2, ∀ i ∈ face, i < st2.verts.length) := by
  induction fl generalizing st fs with
  | nil =>
    rw [renumFaces] at h
    injection h with h
    injection h with h1 h2
    subst h1; subst h2
    exact ⟨hinv, rfl, hfs⟩
  | cons f0 fl ih =>
    rw [renumFaces] at h
    cases hn : renumNodes N f0 st [] with
    | none =>
      simp only [hn] at h
      exact Option.noConfusion h
    | some p =>
      obtain ⟨st1, face1⟩ := p
      simp only [hn] at h
      obtain ⟨hinv1, hverts1, hface1, hlen1⟩ :=
        renumNodes_invariant N f0 st [] st1 face1 hn hinv
      have hfs1 : ∀ face ∈ fs ++ [face1], ∀ i ∈ face,
          i < st1.verts.length := by
        intro face hface i hi
        rcases List.mem_append.mp hface with hin | hin
        · exact lt_of_lt_of_le (hfs face hin i hi) hlen1
        · have : face = face1 := List.mem_singleton.mp hin
          subst this
          rcases hface1 i hi with hemp | hlt
          · cases hemp
          · exact hlt
      obtain ⟨h1, h2, h3⟩ := ih st1 (fs ++ [face1]) h hinv1 hfs1
      refine ⟨h1, ?_, h3⟩
      rw [List.flatten_cons, List.filterMap_append, List.foldl_append,
        ← hverts1]
      exact h2

theorem mem_fsStep_foldl [DecidableEq α] (cs : List α) (acc : List α)
    (x : α) : x ∈ cs.foldl fsStep acc ↔ x ∈ acc ∨ x ∈ cs := by
  induction cs generalizing acc with
  | nil => simp
  | cons c cs ih =>
    rw [List.foldl_cons, ih, fsStep]
    split
    · rename_i hm
      constructor
      · rintro (hx | hx)
        · exact Or.inl hx
        · exact Or.inr (List.mem_cons_of_mem c hx)
      · rintro (hx | hx)
        · exact Or.inl hx
        · rcases List.mem_cons.mp hx with rfl | hx2
          · exact Or.inl hm
          · exact Or.inr hx2
    · constructor
      · rintro (hx | hx)
        · rcases List.mem_append.mp hx with hx2 | hx2
          · exact Or.inl hx2
          · exact Or.inr (List.mem_cons.mpr (Or.inl
              (List.mem_singleton.mp hx2)))
        · exact Or.inr (List.mem_cons_of_mem c hx)
      · rintro (hx | hx)
        · exact Or.inl (List.mem_append.mpr (Or.inl hx))
        · rcases List.mem_cons.mp hx with rfl | hx2
          · exact Or.inl (List.mem_append.mpr (Or.inr
              (List.mem_singleton.mpr rfl)))
          · exact Or.inr hx2

theorem nodup_fsStep_foldl [DecidableEq α] (cs : List α) (acc : List α)
    (hacc : acc.Nodup) : (cs.foldl fsStep acc).Nodup := by
  induction cs generalizing acc with
  | nil => exact hacc
  | cons c cs ih =>
    rw [List.foldl_cons]
    refine ih (fsStep acc c) ?_
    rw [fsStep]
    split
    · exact hacc
    · rename_i hnm
      simp [List.nodup_append, hacc, hnm]

theorem firstSeen_length_eq_dedup [DecidableEq α] (cs : List α) :
    (firstSeen cs).length = cs.dedup.length := by
  have hperm : (firstSeen cs).Perm cs.dedup := by
    rw [firstSeen, List.perm_ext_iff_of_nodup
      (nodup_fsStep_foldl cs [] List.nodup_nil) (List.nodup_dedup cs)]
    intro a
    rw [mem_fsStep_foldl, List.mem_dedup]
    simp
  exact hperm.length_eq

/-- C7 counterexample: a group whose faces reference three distinct node
ids, two of which share one coordinate, yields a vertex array with two
entries, not three: `renumber` deduplicates by coordinate, not by node
id. -/
theorem renumber_coord_collapse_cex :
    (renumberGroup [(1, ((0 : Int), (0 : Int), (0 : Int))),
        (2, (0, 0, 0)), (3, (1, 0, 0))] [[1, 2, 3]]).map
        (fun p => p.1.length) = some 2 ∧
      (renumberGroup [(1, ((0 : Int), (0 : Int), (0 : Int))),
        (2, (0, 0, 0)), (3, (1, 0, 0))] [[1, 2, 3]]).map
        (fun p => p.1.length) ≠ some 3 :=
  ⟨by decide, by decide⟩

/-- C7 amended: for a group whose outer faces reference `k` distinct
coordinates, the vertex array has exactly `k` entries, listed in
first-seen order of coordinates, and every rewritten face index lies
below `k`. -/
theorem renumberGroup_dense (N : List (Int × Coord))
    (fl : List (List Int)) (verts : List Coord) (fs : List (List Nat))
    (h : renumberGroup N fl = some (verts, fs)) :
    verts = firstSeen (fl.flatten.filterMap (dictLookup N)) ∧
      verts.length = (fl.flatten.filterMap (dictLookup N)).dedup.length ∧
      ∀ face ∈ fs, ∀ i ∈ face, i < verts.length := by
  rw [renumberGroup] at h
  cases hr : renumFaces N fl ⟨[], [], 0⟩ [] with
  | none =>
    simp only [hr] at h
    exact Option.noConfusion h
  | some p =>
    obtain ⟨st2, fs2⟩ := p
    simp only [hr] at h
    injection h with h
    injection h with h1 h2
    subst h1; subst h2
    have hinv0 : RInv ⟨[], [], 0⟩ := by
      refine ⟨rfl, ?_, ?_⟩
      · intro c
        constructor
        · intro hc; cases hc
        · intro hc; cases hc
      · intro c i hci; cases hci
    obtain ⟨_, hverts, hbound⟩ :=
      renumFaces_invariant N fl ⟨[], [], 0⟩ [] st2 fs2 hr hinv0
        (fun face hface => (List.not_mem_nil face hface).elim)
    refine ⟨hverts, ?_, hbound⟩
    rw [hverts]
    exact firstSeen_length_eq_dedup _

/-- Witness for the amended C7 theorem. -/
theorem renumberGroup_dense_witness :
    renumberGroup [(1, ((0 : Int), (0 : Int), (0 : Int))), (2, (1, 0, 0)),
        (3, (0, 1, 0))] [[1, 2, 3]] =
      some ([((0 : Int), (0 : Int), (0 : Int)), (1, 0, 0), (0, 1, 0)],
        [[0, 1, 2]]) ∧
      ([((0 : Int), (0 : Int), (0 : Int)), (1, 0, 0), (0, 1, 0)] =
        firstSeen (([[(1 : Int), 2, 3]]).flatten.filterMap
          (dictLookup [(1, ((0 : Int), (0 : Int), (0 : Int))),
            (2, (1, 0, 0)), (3, (0, 1, 0))]))) ∧
        ([((0 : Int), (0 : Int), (0 : Int)), (1, 0, 0),
            (0, 1, 0)].length =
          (([[(1 : Int), 2, 3]]).flatten.filterMap
            (dictLookup [(1, ((0 : Int), (0 : Int), (0 : Int))),
              (2, (1, 0, 0)), (3, (0, 1, 0))])).dedup.length) ∧
        ∀ face ∈ [[(0 : Nat), 1, 2]], ∀ i ∈ face,
          i < [((0 : Int), (0 : Int), (0 : Int)), (1, 0, 0),
            (0, 1, 0)].length :=
  ⟨rfl,
    renumberGroup_dense
      [((1 : Int), ((0 : Int), (0 : Int), (0 : Int))), (2, (1, 0, 0)),
        (3, (0, 1, 0))] [[(1 : Int), 2, 3]]
      [((0 : Int), (0 : Int), (0 : Int)), (1, 0, 0), (0, 1, 0)]
      [[0, 1, 2]] rfl⟩

/-! ### C4: unit-cube round trip -/

set_option maxRecDepth 1000000 in
set_option maxHeartbeats 4000000 in
/-- C4: writing the unit cube through the writer's NBLOCK/EBLOCK layout
and re-reading the text through the reader and face extraction with
`remove_duplicates = true` recovers exactly 6 boundary faces and 8
vertices. -/
theorem cube_round_trip : cubeRoundTrip = some (6, 8) := by decide

/-! ### C6: the EBLOCK multi-line continuation never completes -/

theorem ebInner_append (forms : List Form) (line : List Char)
    (field_count : Nat) (start : Int) (fuel : Nat) :
    ∀ (vars : EVars) (fields : List Int),
      ebInner forms line field_count start fuel vars fields = none ∨
      ∃ vars2 δ, ebInner forms line field_count start fuel vars fields =
        some (vars2, fields ++ δ) := by
  induction fuel with
  | zero => intro vars fields; exact Or.inl rfl
  | succ fuel ih =>
    intro vars fields
    cases hf : forms.get? field_count with
    | none =>
      refine Or.inr ⟨vars, [], ?_⟩
      rw [List.append_nil, ebInner]
      simp only [hf]
    | some f =>
      cases hp : pyInt? (pySlice line start (start + f.2.1)) with
      | none =>
        refine Or.inr ⟨⟨vars.fieldv, some (start + f.2.1)⟩, [], ?_⟩
        rw [List.append_nil, ebInner]
        simp only [hf, hp]
      | some v =>
        rcases ih ⟨some v, some (start + f.2.1)⟩ (fields ++ [v]) with
          hn | ⟨vars2, δ, hs⟩
        · refine Or.inl ?_
          rw [ebInner]
          simp only [hf, hp]
          exact hn
        · refine Or.inr ⟨vars2, [v] ++ δ, ?_⟩
          rw [ebInner]
          simp only [hf, hp]
          rw [← List.append_assoc]
          exact hs

/-- C6 (code defect): once entered, the SOLID EBLOCK continuation loop
never completes for any amount of fuel: `field_count` is never changed
(the source's `++field_count` is a double unary plus, a no-op, and
`start` is never advanced either), so the guard
`field_count < fields[8] + 11` stays true forever and the parse of a
record whose declared node count exceeds the first line's fields does
not terminate, let alone produce the full node list. -/
theorem ebCont_no_progress (forms : List Form) (field_count : Nat)
    (fuel : Nat) :
    ∀ (vars : EVars) (fields : List Int) (lines : List (List Char))
      (n8 : Int), fields.get? 8 = some n8 →
      (field_count : Int) < n8 + 11 →
      ebCont forms field_count fuel vars fields lines = none := by
  induction fuel with
  | zero =>
    intro vars fields lines n8 h8 hlt
    rw [ebCont]
    simp only [h8]
    rw [if_pos hlt]
  | succ fuel ih =>
    intro vars fields lines n8 h8 hlt
    rw [ebCont]
    simp only [h8]
    rw [if_pos hlt]
    cases hrl : readline lines with
    | mk line rest =>
      rcases ebInner_append forms line field_count 0 fuel vars fields with
        hn | ⟨vars2, δ, hs⟩
      · simp only [hn]
      · simp only [hs]
        refine ih vars2 (fields ++ δ) rest n8 ?_ hlt
        have h8lt : 8 < fields.length := (List.get?_eq_some.mp h8).fst
        rw [List.get?_eq_getElem?] at h8 ⊢
        rw [List.getElem?_append_left h8lt]
        exact h8

/-- Witness for C6: a 19-field SOLID record declaring 20 nodes (a
SOLID186 element) never completes its continuation. -/
theorem ebCont_no_progress_witness :
    ([(1 : Int), 1, 1, 0, 0, 0, 0, 0, 20, 0, 1, 11, 12, 13, 14, 15, 16,
        17, 18].get? 8 = some 20) ∧
      ((19 : Int) < 20 + 11) ∧
      ebCont (List.replicate 19 ("i".toList, 8, 0)) 19 3 ⟨none, none⟩
        [(1 : Int), 1, 1, 0, 0, 0, 0, 0, 20, 0, 1, 11, 12, 13, 14, 15,
          16, 17, 18] [] = none :=
  ⟨rfl, by decide,
    ebCont_no_progress (List.replicate 19 ("i".toList, 8, 0)) 19 3
      ⟨none, none⟩
      [(1 : Int), 1, 1, 0, 0, 0, 0, 0, 20, 0, 1, 11, 12, 13, 14, 15, 16,
        17, 18] [] 20 rfl (by decide)⟩

/-! ### C8: ET with an empty id token -/

/-- C8 (code defect): `ET,,186` does not assign id 1: the empty-id
branch of `readET` computes the fresh id but never assigns the local
`et_type`, so the dict store raises `NameError` and the parse aborts
(`none`), even on an empty element-type table. -/
theorem et_empty_id_crash : read3DMesh ["ET,,186".toList] = none := rfl

/-! ### C9: end of input in the middle of a block -/

/-- C9 (code defect): end of input inside an NBLOCK terminates the
block with the records read so far and the parse returns normally, but
end of input inside a SOLID EBLOCK raises `UnboundLocalError`: the
empty line fails the first field conversion, and `fields.append(field)`
then references the never-assigned local `field`. -/
theorem truncation_behavior :
    (read3DMesh ["NBLOCK,6,SOLID".toList, "(3i8,6g16.9)".toList,
        ("       1       0       0               1               2" ++
          "               3").toList]).isSome = true ∧
      read3DMesh ["EBLOCK,19,SOLID".toList, "(19i8)".toList] = none :=
  ⟨rfl, rfl⟩

/-- Witness for C10 at a concrete canonical face. -/
theorem inverse_face_canonical_witness :
    (([1, 3, 2] : List Int) ≠ []) ∧
      (∀ a ∈ ([1, 3, 2] : List Int), ([1, 3, 2] : List Int).getD 0 0 ≤ a) ∧
      ((inverse_face [1, 3, 2]).getD 0 0 = ([1, 3, 2] : List Int).getD 0 0 ∧
        order_face (inverse_face [1, 3, 2]) = inverse_face [1, 3, 2] ∧
        inverse_face (inverse_face [1, 3, 2]) = ([1, 3, 2] : List Int)) :=
  ⟨by decide, by decide, inverse_face_canonical [1, 3, 2] (by decide) (by decide)⟩

end CDB
